import Mathlib

/-!
Verification development for `screener.py`, a single-run stock screener:
it builds a ticker universe from two index listings, screens each ticker
against market-cap/volume pre-filters and a technical-indicator rule, and
sends the resulting report over Telegram.

The Python source is embedded shallowly: pure helpers become Lean
functions, the per-ticker network calls become an explicit environment of
`Except`-valued outcomes, and Python floats that can be NaN become
`Option ℚ` (with `none` for NaN, so that comparisons with NaN are false,
as in pandas).
-/

set_option maxRecDepth 4000

deriving instance DecidableEq for Except

namespace Screener

/-! ### Python-level primitives used by the source -/

/-- Python `s[i:j]` on a character sequence, for `0 ≤ i ≤ j` (both clamped). -/
def pySlice (s : List Char) (i j : Nat) : List Char :=
  (s.drop i).take (j - i)

/-- Python `range(start, stop, step)` for a positive `step`. -/
def pyRange (start stop step : Nat) : List Nat :=
  (List.range ((stop - start + (step - 1)) / step)).map (fun k => start + k * step)

/-- Test that `needle` is a prefix of `hay` (character-wise). -/
def startsWithL : List Char → List Char → Bool
  | [], _ => true
  | _ :: _, [] => false
  | a :: ns, b :: hs => a == b && startsWithL ns hs

/-- Test that `needle` occurs somewhere in `hay`: Python `needle in hay`. -/
def hasSubList (needle : List Char) : List Char → Bool
  | [] => needle.isEmpty
  | c :: hs => startsWithL needle (c :: hs) || hasSubList needle hs

/-- Python substring test `needle in hay` on strings. -/
def strContains (hay needle : String) : Bool :=
  hasSubList needle.data hay.data

/-! ### Utilities of the source (lines 28–45) -/

/-- Function `yahoo_symbol_fix` (lines 28–30): `ticker.replace(".", "-").strip().upper()`.
`replace` with the one-character pattern "." is a character map; `strip`
removes leading/trailing whitespace; `upper` upper-cases. -/
def yahoo_symbol_fix (ticker : String) : String :=
  let replaced := ticker.data.map (fun c => if c = '.' then '-' else c)
  let stripped :=
    ((replaced.dropWhile (fun c => c.isWhitespace)).reverse.dropWhile
      (fun c => c.isWhitespace)).reverse
  String.mk (stripped.map Char.toUpper)

/-- Function `chunk_text` (lines 32–33): `[s[i:i+max_len] for i in range(0, len(s), max_len)]`. -/
def chunk_text (s : List Char) (max_len : Nat) : List (List Char) :=
  (pyRange 0 s.length max_len).map (fun i => pySlice s i (i + max_len))

/-- The same chunking at the `String` level (Python strings are character sequences). -/
def chunk_textS (s : String) (max_len : Nat) : List String :=
  (chunk_text s.data max_len).map String.mk

/-- Observable outcome of `send_telegram_message`: the message bodies passed to
`requests.post` (line 41), in order, and whether the empty-credentials warning
was printed (line 37). -/
structure SendOutcome where
  posts : List String
  warned : Bool
deriving DecidableEq, Repr

/-- Function `send_telegram_message` (lines 35–45): empty token or chat id (Python falsy
strings) short-circuits to a warning with no post; otherwise each 3500-character
chunk of `text` is posted. Per-chunk HTTP failures are caught at line 42–45 and
only logged, so they do not change which bodies were posted. -/
def send_telegram_message (token chat_id text : String) : SendOutcome :=
  if token = "" || chat_id = "" then ⟨[], true⟩
  else ⟨chunk_textS text 3500, false⟩

/-! ### Ticker collection (lines 50–71)

The HTML tables returned by `pd.read_html` are modelled as ordered lists of
columns, each a header string paired with its cell values. -/

/-- A Python exception, as far as the source can observe one. -/
inductive PyErr where
  /-- Reference to an undefined variable, e.g. `cond3`/`cond4` at line 131. -/
  | nameError
  /-- `tables[0]` on an empty list. -/
  | indexError
  /-- Column lookup `table[key]` with no such column. -/
  | keyError (key : String)
  /-- `raise ValueError(msg)`. -/
  | valueError (msg : String)
  /-- Any failure raised by an external library call (network, parsing, …). -/
  | external (msg : String)
deriving DecidableEq, Repr

/-- One parsed HTML table: ordered columns of (header, cells). -/
abbrev Table := List (String × List String)

/-- Function `get_sp500_tickers` (lines 50–56) after the network fetch and
`pd.read_html`: it takes the exact column "Symbol" of the first table directly — no column search. -/
def get_sp500_tickers (tables : List Table) : Except PyErr (List String) :=
  match tables with
  | [] => .error .indexError
  | t :: _ =>
    match t.find? (fun c => c.1 == "Symbol") with
    | some c => .ok c.2
    | none => .error (.keyError "Symbol")

/-- Line 66: `"ticker" in c or "symbol" in c` over the lower-cased header
(`c.lower()` lower-cases each character). -/
def col_ci (header : String) : Bool :=
  hasSubList "ticker".data (header.data.map Char.toLower) ||
    hasSubList "symbol".data (header.data.map Char.toLower)

/-- Line 69: `"Ticker" in col or "Symbol" in col` — case-sensitive. -/
def col_cs (header : String) : Bool :=
  strContains header "Ticker" || strContains header "Symbol"

/-- The nested loops of lines 64–70: first table whose lower-cased headers
contain "ticker" or "symbol", then its first column whose header contains
"Ticker" or "Symbol" case-sensitively; a table passing the outer test but
with no such column falls through to the next table. -/
def find_ndx_col : List Table → Option (List String)
  | [] => none
  | t :: ts =>
    if t.any (fun c => col_ci c.1) then
      match t.find? (fun c => col_cs c.1) with
      | some c => some c.2
      | none => find_ndx_col ts
    else find_ndx_col ts

/-- Function `get_nasdaq100_tickers` (lines 58–71) after the fetch and `pd.read_html`. -/
def get_nasdaq100_tickers (tables : List Table) : Except PyErr (List String) :=
  match find_ndx_col tables with
  | some l => .ok l
  | none => .error (.valueError "NASDAQ-100 ticker table not found")

/-! ### Per-ticker screening (lines 76–144) -/

/-- A pandas float cell: `none` models NaN (any comparison with it is false). -/
abbrev PyFloat := Option ℚ

/-- Comparison `x ≤ y` where `y` may be NaN. -/
def pfLeF (x : ℚ) (y : PyFloat) : Bool :=
  match y with
  | some b => decide (x ≤ b)
  | none => false

/-- Comparison `x > y` where `y` may be NaN. -/
def pfGtF (x : ℚ) (y : PyFloat) : Bool :=
  match y with
  | some b => decide (b < x)
  | none => false

/-- Comparison `y < c` where `y` may be NaN. -/
def pfLtC (y : PyFloat) (c : ℚ) : Bool :=
  match y with
  | some v => decide (v < c)
  | none => false

/-- Comparison `a > b` where both may be NaN. -/
def pfGtPP (a b : PyFloat) : Bool :=
  match a, b with
  | some x, some y => decide (y < x)
  | _, _ => false

/-- The fields of `tk.info` the source reads (lines 93–94, 102). -/
structure Info where
  marketCap : Option Int
  averageVolume : Option Int
  averageDailyVolume10Day : Option Int
deriving DecidableEq, Repr

/-- The last row of the price dataframe after the indicator columns are added
(lines 117–125). The indicator values are produced by the external `ta`
library and pandas rolling means, so they enter the model as data. -/
structure LastRow where
  close : ℚ
  bb_low : PyFloat
  ma60 : PyFloat
  rsi : PyFloat
  macd : PyFloat
  signal : PyFloat
deriving DecidableEq, Repr

/-- Outcomes of the external calls one `screen_one(ticker)` run can make, in
source order. Each is an `Except` because any of them may raise. -/
structure TickerEnv where
  /-- `yf.Ticker(ticker)` (line 78). -/
  ticker_make : Except PyErr Unit
  /-- `getattr(tk.fast_info, "market_cap", None)` (lines 85–86). -/
  fast_info : Except PyErr (Option Int)
  /-- `tk.info` at the market-cap fallback (lines 91–96). -/
  info_first : Except PyErr Info
  /-- `tk.info` at the volume retry (lines 100–104). -/
  info_second : Except PyErr Info
  /-- `yf.download(...)` (line 112): the close column; `[]` is an empty frame. -/
  download : Except PyErr (List ℚ)
  /-- Indicator computation and `df.iloc[-1]` (lines 117–125). -/
  indicators : Except PyErr LastRow

/-- The configured thresholds (lines 16–17), floats read from the environment. -/
structure Config where
  min_market_cap : ℚ
  min_avg_volume : ℚ
deriving DecidableEq, Repr

/-- The default configuration: `MIN_MARKET_CAP = 20000000000`,
`MIN_AVG_VOLUME = 1000000`. -/
def defaultConfig : Config := ⟨20000000000, 1000000⟩

/-- The result dict built at lines 132–140. -/
structure ScreenResult where
  ticker : String
  close : ℚ
  rsi : Option ℚ
  macd : Option ℚ
  signal : Option ℚ
  marketCap : Int
  avgVolume : Int
deriving DecidableEq, Repr

/-- Python `a or b` on optional integers: `a` if truthy (present and nonzero),
else `b` (line 94 and 102). -/
def pyOrInt (a b : Option Int) : Option Int :=
  match a with
  | some v => if v ≠ 0 then some v else b
  | none => b

/-- Lines 81–104: resolve market cap and average volume. `fast_info` first for
the cap; on `None`, one `tk.info` lookup fills both; if the volume is still
`None`, a second `tk.info` lookup retries it. Every step is wrapped in its own
`try/except`, so resolution itself never raises. -/
def resolve_cap_vol (env : TickerEnv) : Option Int × Option Int :=
  let market_cap : Option Int :=
    match env.fast_info with
    | .ok v => v
    | .error _ => none
  let step1 : Option Int × Option Int :=
    if market_cap.isNone then
      match env.info_first with
      | .ok info => (info.marketCap, pyOrInt info.averageVolume info.averageDailyVolume10Day)
      | .error _ => (none, none)
    else (market_cap, none)
  let avg_volume : Option Int :=
    if step1.2.isNone then
      match env.info_second with
      | .ok info => pyOrInt info.averageVolume info.averageDailyVolume10Day
      | .error _ => none
    else step1.2
  (step1.1, avg_volume)

/-- The body of `screen_one` (lines 77–141), i.e. everything inside the outer
`try`. Note line 131: the guard `cond1 and cond2 and (cond3 or cond4)`
references `cond3`/`cond4`, which are only ever mentioned in the comments of
lines 128–129 and are defined nowhere, so once `cond1` and `cond2` are both
true the expression raises `NameError`; short-circuiting means the guard
evaluates to `False` without reaching `cond3` otherwise. -/
def screen_one_body (cfg : Config) (ticker : String) (env : TickerEnv) :
    Except PyErr (Option ScreenResult) :=
  match env.ticker_make with
  | .error e => .error e
  | .ok _ =>
    let rc := resolve_cap_vol env
    match rc.1 with
    | none => .ok none
    | some mc =>
      if mc == 0 || decide ((mc : ℚ) < cfg.min_market_cap) then .ok none
      else
        match rc.2 with
        | none => .ok none
        | some av =>
          if av == 0 || decide ((av : ℚ) < cfg.min_avg_volume) then .ok none
          else
            match env.download with
            | .error e => .error e
            | .ok closes =>
              if closes.isEmpty then .ok none
              else
                match env.indicators with
                | .error e => .error e
                | .ok last =>
                  let cond1 := pfLeF last.close last.bb_low
                  let cond2 := pfGtF last.close last.ma60
                  if cond1 && cond2 then .error .nameError
                  else .ok none

/-- Function `screen_one` (lines 76–144): the outer `try/except Exception` catches any
error from the body, logs it, and discards the ticker. -/
def screen_one (cfg : Config) (ticker : String) (env : TickerEnv) :
    Option ScreenResult :=
  match screen_one_body cfg ticker env with
  | .ok r => r
  | .error _ => none

/-- Modelled from the spec: §4.1 Conditions A, B and C — the screening rule the
source intends at lines 126–131 (`close ≤ bb_low`, `close > ma60`,
`rsi < 35 or macd > signal`); the guard in the source instead references the
undefined names `cond3`/`cond4`. -/
def intended_pass (last : LastRow) : Bool :=
  pfLeF last.close last.bb_low && pfGtF last.close last.ma60 &&
    (pfLtC last.rsi 35 || pfGtPP last.macd last.signal)

/-! ### The orchestrator `main` (lines 149–185) -/

/-- The loop of lines 158–166: screen every ticker, keep the truthy results in
order. The `time.sleep(0.05)` pause and the progress prints are I/O only and
have no bearing on the collected hits. -/
def screen_all (cfg : Config) (tickers : List String) (envOf : String → TickerEnv) :
    List ScreenResult :=
  tickers.filterMap (fun t => screen_one cfg t (envOf t))

/-- Line 155: `tickers = sorted(set(sp500 + ndx))` — the raw symbol lists are
concatenated, de-duplicated and sorted; `yahoo_symbol_fix` is never applied. -/
def build_universe (sp500 ndx : List String) : List String :=
  ((sp500 ++ ndx).eraseDups).insertionSort (fun a b => a.data ≤ b.data)

/-- The no-hits message of line 169. -/
def no_matches_msg (kst_now : String) : String :=
  "📉 [" ++ kst_now ++ " KST] 조건에 맞는 종목이 없습니다."

/-- The messages `main` hands to `send_telegram_message`, one per run
(lines 168–185): the no-hits message when nothing matched, else the formatted
report. `reportText` stands for the report built at lines 174–183, whose
float rendering is outside this model; no claim depends on its contents. -/
def main_send_calls (kst_now : String) (hits : List ScreenResult)
    (reportText : String) : List String :=
  if hits.isEmpty then [no_matches_msg kst_now] else [reportText]

/-- Line 174 sort key, first component: the `RSI` column ascending with NaN
(`none`) last, as pandas places missing keys. -/
def rsiLtB : Option ℚ → Option ℚ → Bool
  | some x, some y => decide (x < y)
  | some _, none => true
  | none, _ => false

/-- Line 174: `sort_values(["RSI", "Ticker"], ascending=[True, True])` orders
rows by RSI ascending with NaN last, ties broken by ticker ascending. -/
def hitLeB (a b : ScreenResult) : Bool :=
  rsiLtB a.rsi b.rsi || (a.rsi == b.rsi && decide (a.ticker.data ≤ b.ticker.data))

/-- The comparator `hitLeB` as a relation, for sortedness statements. -/
def HitLe (a b : ScreenResult) : Prop := hitLeB a b = true

instance : DecidableRel HitLe := fun a b => decEq (hitLeB a b) true

/-- The report row order produced by line 174. The multi-key sort of pandas is the
stable sort by the lexicographic key, which insertion sort computes. -/
def sort_values (hits : List ScreenResult) : List ScreenResult :=
  hits.insertionSort HitLe

/-! ### Concrete inputs used by the claim theorems -/

/-- A last bar engineered so that all three intended conditions hold:
`close = 10 ≤ bb_low = 10`, `close = 10 > ma60 = 9`, `rsi = 30 < 35`
(and also `macd = 1 > signal = 0`). -/
def passingRow : LastRow := ⟨10, some 10, some 9, some 30, some 1, some 0⟩

/-- An environment in which every external call succeeds, the pre-filters pass
(cap 30 B from the fast path, volume 2 M from the second `tk.info`), the
history is non-empty, and the last bar is `passingRow`. -/
def passingEnv : TickerEnv :=
  { ticker_make := .ok ()
    fast_info := .ok (some 30000000000)
    info_first := .ok ⟨none, none, none⟩
    info_second := .ok ⟨none, some 2000000, none⟩
    download := .ok [10]
    indicators := .ok passingRow }

/-- An environment whose very first external call raises. -/
def crashEnv : TickerEnv :=
  { ticker_make := .error (.external "ConnectionError")
    fast_info := .ok none
    info_first := .ok ⟨none, none, none⟩
    info_second := .ok ⟨none, none, none⟩
    download := .ok []
    indicators := .error (.external "ConnectionError") }

/-- An environment where the fast path has no market cap and both `tk.info`
lookups fail, so cap and volume both resolve to unknown. -/
def filteredEnv : TickerEnv :=
  { ticker_make := .ok ()
    fast_info := .ok none
    info_first := .error (.external "HTTP 404")
    info_second := .error (.external "HTTP 404")
    download := .ok []
    indicators := .error .nameError }

/-- A tables list whose only column header is "ticker" (lower-case). -/
def lowercaseTables : List Table := [[("ticker", ["AAPL", "MSFT"])]]

/-! ### Helper lemmas -/

/-- The ceiling bound `n ≤ ⌈n / m⌉ * m` used by the chunking proof. -/
lemma le_ceil_mul (m : Nat) (hm : 0 < m) (n : Nat) : n ≤ ((n + (m - 1)) / m) * m := by
  rcases Nat.eq_zero_or_pos n with h0 | hpos
  · simp [h0]
  · have h1 : n + (m - 1) = (n - 1) + m := by omega
    rw [h1, Nat.add_div_right _ hm, Nat.succ_mul]
    have hdm := Nat.div_add_mod' (n - 1) m
    have hlt := Nat.mod_lt (n - 1) hm
    have h2 : n - 1 < (n - 1) / m * m + m := by
      calc n - 1 = (n - 1) / m * m + (n - 1) % m := hdm.symm
        _ < (n - 1) / m * m + m := Nat.add_lt_add_left hlt _
    have h3 : n - 1 + 1 ≤ (n - 1) / m * m + m := Nat.succ_le_of_lt h2
    have h4 : n - 1 + 1 = n := Nat.succ_pred_eq_of_pos hpos
    rwa [h4] at h3

/-- Joining consecutive `m`-sized slices reassembles the list. -/
lemma take_drop_join (m : Nat) :
    ∀ (c : Nat) (s : List Char), s.length ≤ c * m →
      ((List.range c).map (fun k => (s.drop (k * m)).take m)).flatten = s := by
  intro c
  induction c with
  | zero =>
    intro s hs
    simp only [Nat.zero_mul, Nat.le_zero] at hs
    simp [List.length_eq_zero.mp hs]
  | succ c ih =>
    intro s hs
    rw [List.range_succ_eq_map, List.map_cons, List.map_map, List.flatten_cons]
    have hterm : ∀ k : Nat,
        ((fun k => (s.drop (k * m)).take m) ∘ Nat.succ) k =
          (fun k => ((s.drop m).drop (k * m)).take m) k := by
      intro k
      simp only [Function.comp_apply]
      rw [List.drop_drop, Nat.succ_mul, Nat.add_comm]
    rw [List.map_congr_left (fun k _ => hterm k)]
    have hlen : (s.drop m).length ≤ c * m := by
      rw [List.length_drop]
      rw [Nat.succ_mul] at hs
      exact Nat.sub_le_iff_le_add.mpr hs
    rw [ih (s.drop m) hlen]
    simp [Nat.zero_mul]

/-- C8: for every string `s` and every `max_len > 0`, `chunk_text` returns
exactly `⌈|s| / max_len⌉` parts, each of length at most `max_len`, whose
concatenation in order is `s`. -/
theorem C8_chunk_text_spec (s : List Char) (m : Nat) (hm : 0 < m) :
    (chunk_text s m).length = (s.length + m - 1) / m ∧
    (∀ p ∈ chunk_text s m, p.length ≤ m) ∧
    (chunk_text s m).flatten = s := by
  refine ⟨?_, ?_, ?_⟩
  · simp only [chunk_text, pyRange, List.length_map, List.length_range]
    congr 1
    omega
  · intro p hp
    simp only [chunk_text, pyRange, List.mem_map] at hp
    obtain ⟨i, _, hip⟩ := hp
    rw [← hip]
    simp only [pySlice]
    calc ((s.drop i).take (i + m - i)).length
        ≤ i + m - i := List.length_take_le _ _
      _ = m := by omega
  · simp only [chunk_text, pyRange, List.map_map]
    have hfun : ∀ k : Nat,
        ((fun i => pySlice s i (i + m)) ∘ fun k => 0 + k * m) k =
          (fun k => (s.drop (k * m)).take m) k := by
      intro k
      simp only [Function.comp_apply, pySlice, Nat.zero_add, Nat.add_sub_cancel_left]
    rw [List.map_congr_left (fun k _ => hfun k)]
    apply take_drop_join
    rw [Nat.sub_zero]
    exact le_ceil_mul m hm s.length

/-- Witness for C8 at a concrete input: "abcde" split with `max_len = 2`. -/
theorem C8_chunk_text_witness :
    0 < 2 ∧
    ((chunk_text "abcde".data 2).length = ("abcde".data.length + 2 - 1) / 2 ∧
      (∀ p ∈ chunk_text "abcde".data 2, p.length ≤ 2) ∧
      (chunk_text "abcde".data 2).flatten = "abcde".data) :=
  ⟨by decide, C8_chunk_text_spec "abcde".data 2 (by decide)⟩

/-- C9: with an empty token or chat id, `send_telegram_message` posts nothing,
returns normally, and only prints the warning. -/
theorem C9_empty_credentials (token chat_id text : String)
    (h : token = "" ∨ chat_id = "") :
    send_telegram_message token chat_id text = ⟨[], true⟩ := by
  rcases h with h | h <;> simp [send_telegram_message, h]

/-- Witness for C9: `send("", "", "hello")` is the documented no-op. -/
theorem C9_empty_credentials_witness :
    send_telegram_message "" "" "hello" = ⟨[], true⟩ :=
  C9_empty_credentials "" "" "hello" (Or.inl rfl)

/-- C10: with non-empty credentials but empty text, no message body is posted —
chunking the empty string yields no parts — and no warning is printed. -/
theorem C10_empty_text (token chat_id : String) (h1 : token ≠ "") (h2 : chat_id ≠ "") :
    chunk_textS "" 3500 = [] ∧
    send_telegram_message token chat_id "" = ⟨[], false⟩ := by
  refine ⟨rfl, ?_⟩
  simp [send_telegram_message, h1, h2]
  rfl

/-- Witness for C10 at concrete credentials. -/
theorem C10_empty_text_witness :
    chunk_textS "" 3500 = [] ∧
    send_telegram_message "tok" "chat" "" = ⟨[], false⟩ :=
  C10_empty_text "tok" "chat" (by decide) (by decide)

/-! ### The screening rule and its undefined-name defect (C1) -/

/-- C1: the claimed rule (emit iff A ∧ B ∧ C at the last bar) is the intent,
but the code is broken: on an input passing the pre-filters with all three
conditions true, line 131 evaluates the undefined names `cond3`/`cond4`,
raising `NameError`, which the outer handler turns into a discard — so
`screen_one` emits nothing even though the intended rule passes (and hence
never emits at all). -/
theorem C1_rule_raises_nameerror :
    intended_pass passingRow = true ∧
    screen_one_body defaultConfig "TEST" passingEnv = .error .nameError ∧
    screen_one defaultConfig "TEST" passingEnv = none := by
  refine ⟨by decide, by decide, by decide⟩

/-! ### Error containment in `screen_one` (C2) -/

/-- C2: whatever the external calls do, `screen_one` returns an
`Option ScreenResult`; any error of the body is caught and becomes a discard
(`none`); and a failing ticker leaves the pass of the orchestrator over the other
tickers untouched. -/
theorem C2_no_exception_propagation (cfg : Config) (t : String) (env : TickerEnv) :
    (screen_one cfg t env = none ∨ ∃ r, screen_one cfg t env = some r) ∧
    (∀ e, screen_one_body cfg t env = Except.error e → screen_one cfg t env = none) ∧
    (∀ envOf ts₁ ts₂, envOf t = env →
      screen_all cfg (ts₁ ++ t :: ts₂) envOf =
        screen_all cfg ts₁ envOf ++ (screen_one cfg t env).toList ++
          screen_all cfg ts₂ envOf) := by
  refine ⟨?_, ?_, ?_⟩
  · cases h : screen_one cfg t env
    · exact Or.inl rfl
    · exact Or.inr ⟨_, rfl⟩
  · intro e he
    simp [screen_one, he]
  · intro envOf ts₁ ts₂ hEq
    simp only [screen_all, List.filterMap_append, List.filterMap_cons, hEq]
    cases screen_one cfg t env <;> simp

/-- Witness for C2: a network failure on the first call yields a discard. -/
theorem C2_no_exception_propagation_witness :
    screen_one defaultConfig "FAIL" crashEnv = none :=
  (C2_no_exception_propagation defaultConfig "FAIL" crashEnv).2.1
    (.external "ConnectionError") rfl

/-! ### Pre-filters (C3) -/

/-- C3: whenever the resolved market cap is unknown or below the configured
minimum, or the resolved average volume is unknown or below its minimum,
`screen_one` emits nothing — and this holds whatever the history fetch and the
indicator computation would have produced, since the pre-filters run first. -/
theorem C3_prefilters_block (cfg : Config) (t : String) (env : TickerEnv)
    (h : (resolve_cap_vol env).1 = none ∨
      (∃ v, (resolve_cap_vol env).1 = some v ∧ (v : ℚ) < cfg.min_market_cap) ∨
      (resolve_cap_vol env).2 = none ∨
      (∃ v, (resolve_cap_vol env).2 = some v ∧ (v : ℚ) < cfg.min_avg_volume)) :
    ∀ d i, screen_one cfg t
      ⟨env.ticker_make, env.fast_info, env.info_first, env.info_second, d, i⟩ = none := by
  intro d i
  have hre : resolve_cap_vol
      ⟨env.ticker_make, env.fast_info, env.info_first, env.info_second, d, i⟩ =
      resolve_cap_vol env := rfl
  simp only [screen_one, screen_one_body, hre]
  cases htm : env.ticker_make with
  | error e => rfl
  | ok u =>
    rcases h with hc | ⟨v, hv, hlt⟩ | hv0 | ⟨v, hv, hlt⟩
    · simp [hc]
    · simp [hv, hlt]
    · rcases hcap : (resolve_cap_vol env).1 with _ | mc
      · simp [hcap]
      · by_cases hg : (mc = 0 ∨ (mc : ℚ) < cfg.min_market_cap)
        · simp [hcap, hg]
        · simp [hcap, hg, hv0]
    · rcases hcap : (resolve_cap_vol env).1 with _ | mc
      · simp [hcap]
      · by_cases hg : (mc = 0 ∨ (mc : ℚ) < cfg.min_market_cap)
        · simp [hcap, hg]
        · simp [hcap, hg, hv, hlt]

/-- Witness for C3: with an unknown market cap the ticker is filtered out,
independent of the history data supplied. -/
theorem C3_prefilters_block_witness :
    screen_one defaultConfig "TST"
      ⟨Except.ok (), Except.ok none, Except.error (.external "HTTP 404"),
        Except.error (.external "HTTP 404"), Except.ok [10],
        Except.ok passingRow⟩ = none :=
  C3_prefilters_block defaultConfig "TST" filteredEnv (Or.inl rfl)
    (Except.ok [10]) (Except.ok passingRow)

/-! ### The ticker universe and the unused normalizer (C4) -/

/-- C4: the universe `main` builds is the sorted de-duplicated union of the raw
listings, but no symbol is normalized: `yahoo_symbol_fix` (which would map
"BRK.B" to "BRK-B") is never called, so "BRK.B" survives as-is — against the
claimed invariant that all symbols are normalized before deduplication. -/
theorem C4_universe_keeps_raw_symbols :
    build_universe ["BRK.B", "AAPL"] ["AAPL"] = ["AAPL", "BRK.B"] ∧
    yahoo_symbol_fix "BRK.B" = "BRK-B" ∧
    ("BRK.B" : String) ≠ "BRK-B" := by
  refine ⟨by decide, by decide, by decide⟩

/-! ### Report ordering (C5) -/

lemma rsiLtB_trans :
    ∀ {a b c : Option ℚ}, rsiLtB a b = true → rsiLtB b c = true → rsiLtB a c = true
  | some x, some y, some z, h1, h2 => by
    simp only [rsiLtB, decide_eq_true_eq] at h1 h2 ⊢
    exact lt_trans h1 h2
  | some _, some _, none, _, _ => rfl
  | some _, none, c, _, h2 => by cases c <;> simp [rsiLtB] at h2
  | none, _, _, h1, _ => by simp [rsiLtB] at h1

lemma hitLeB_trans {a b c : ScreenResult}
    (h1 : hitLeB a b = true) (h2 : hitLeB b c = true) : hitLeB a c = true := by
  simp only [hitLeB, Bool.or_eq_true, Bool.and_eq_true, beq_iff_eq,
    decide_eq_true_eq] at h1 h2 ⊢
  rcases h1 with h1 | ⟨he1, ht1⟩
  · rcases h2 with h2 | ⟨he2, ht2⟩
    · exact Or.inl (rsiLtB_trans h1 h2)
    · rw [← he2]
      exact Or.inl h1
  · rcases h2 with h2 | ⟨he2, ht2⟩
    · rw [he1]
      exact Or.inl h2
    · exact Or.inr ⟨he1.trans he2, le_trans ht1 ht2⟩

lemma hitLeB_total (a b : ScreenResult) : hitLeB a b = true ∨ hitLeB b a = true := by
  simp only [hitLeB, Bool.or_eq_true, Bool.and_eq_true, beq_iff_eq, decide_eq_true_eq]
  rcases ha : a.rsi with _ | x <;> rcases hb : b.rsi with _ | y
  · rcases le_total a.ticker.data b.ticker.data with h | h
    · exact Or.inl (Or.inr ⟨rfl, h⟩)
    · exact Or.inr (Or.inr ⟨rfl, h⟩)
  · exact Or.inr (Or.inl (by simp [rsiLtB]))
  · exact Or.inl (Or.inl (by simp [rsiLtB]))
  · rcases lt_trichotomy x y with h | h | h
    · exact Or.inl (Or.inl (by simp [rsiLtB, h]))
    · subst h
      rcases le_total a.ticker.data b.ticker.data with h | h
      · exact Or.inl (Or.inr ⟨rfl, h⟩)
      · exact Or.inr (Or.inr ⟨rfl, h⟩)
    · exact Or.inr (Or.inl (by simp [rsiLtB, h]))

instance : IsTrans ScreenResult HitLe :=
  ⟨fun _ _ _ h1 h2 => hitLeB_trans h1 h2⟩

instance : IsTotal ScreenResult HitLe :=
  ⟨fun a b => hitLeB_total a b⟩

/-- C5: the report rows are ordered ascending by (RSI, ticker) — RSI first,
ticker as tiebreak, null RSI (NaN) placed last — the output is a permutation
of the input, and the example of the claim sorts to BBB, AAA, CCC. -/
theorem C5_report_order :
    (∀ hits : List ScreenResult,
        List.Sorted HitLe (sort_values hits) ∧ List.Perm (sort_values hits) hits) ∧
    sort_values
        [⟨"AAA", 0, some 40, none, none, 0, 0⟩,
         ⟨"BBB", 0, some 20, none, none, 0, 0⟩,
         ⟨"CCC", 0, none, none, none, 0, 0⟩] =
      [⟨"BBB", 0, some 20, none, none, 0, 0⟩,
       ⟨"AAA", 0, some 40, none, none, 0, 0⟩,
       ⟨"CCC", 0, none, none, none, 0, 0⟩] := by
  refine ⟨fun hits => ⟨List.sorted_insertionSort HitLe hits,
    List.perm_insertionSort HitLe hits⟩, by decide⟩

/-! ### The "no matches" notification (C6) -/

lemma startsWithL_self : ∀ (n suf : List Char), startsWithL n (n ++ suf) = true := by
  intro n
  induction n with
  | nil => intro suf; rfl
  | cons a ns ih => intro suf; simp [startsWithL, ih]

lemma hasSubList_of_starts (n hay : List Char) (h : startsWithL n hay = true) :
    hasSubList n hay = true := by
  cases hay with
  | nil =>
    cases n with
    | nil => rfl
    | cons a ns => simp [startsWithL] at h
  | cons c hs => simp [hasSubList, h]

lemma hasSubList_mid : ∀ (pre n suf : List Char), hasSubList n (pre ++ (n ++ suf)) = true := by
  intro pre
  induction pre with
  | nil =>
    intro n suf
    simpa using hasSubList_of_starts n (n ++ suf) (startsWithL_self n suf)
  | cons c pre ih =>
    intro n suf
    simp [hasSubList, ih n suf]

/-- Any middle factor of a concatenation is found by the substring test. -/
lemma strContains_mid (p mid q : String) : strContains (p ++ mid ++ q) mid = true := by
  unfold strContains
  rw [String.data_append, String.data_append, List.append_assoc]
  exact hasSubList_mid p.data mid.data q.data

/-- A text that fits in one chunk is sent as exactly that one message. -/
lemma chunk_textS_single (s : String) (m : Nat) (h0 : 0 < s.length) (hle : s.length ≤ m) :
    chunk_textS s m = [s] := by
  have hlen : s.data.length = s.length := rfl
  have hm : 0 < m := lt_of_lt_of_le h0 hle
  unfold chunk_textS chunk_text pyRange pySlice
  have hc : (s.data.length - 0 + (m - 1)) / m = 1 := by
    have h1 : s.data.length - 0 + (m - 1) = (s.data.length - 1) + m := by omega
    have h2 : (s.data.length - 1) / m = 0 := Nat.div_eq_of_lt (by omega)
    rw [h1, Nat.add_div_right _ hm, h2]
  rw [hc]
  have hr : List.range 1 = [0] := rfl
  have h3 : s.data.take m = s.data := List.take_of_length_le (by omega)
  rw [hr]
  simp only [List.map_cons, List.map_nil, Nat.zero_mul, Nat.zero_add,
    Nat.add_sub_cancel_left, List.drop_zero, Nat.sub_zero, h3]

/-- C6 (amended): when zero tickers pass, `main` makes exactly one
notification call, with the no-matches message; with valid credentials that
message goes out as a single chunk; and it contains the run timestamp.
(It does not contain the match count — see the counterexample.) -/
theorem C6_no_hits_single_message (ts token chat reportText : String)
    (h1 : token ≠ "") (h2 : chat ≠ "") (h3 : ts.length ≤ 3000) :
    main_send_calls ts [] reportText = [no_matches_msg ts] ∧
    (send_telegram_message token chat (no_matches_msg ts)).posts = [no_matches_msg ts] ∧
    strContains (no_matches_msg ts) ts = true := by
  have hp : ("📉 [" : String).length = 3 := rfl
  have hq : (" KST] 조건에 맞는 종목이 없습니다." : String).length = 22 := rfl
  have hlen : (no_matches_msg ts).length = 3 + ts.length + 22 := by
    simp only [no_matches_msg, String.length_append]
    omega
  refine ⟨rfl, ?_, ?_⟩
  · have hmsg : send_telegram_message token chat (no_matches_msg ts) =
        ⟨chunk_textS (no_matches_msg ts) 3500, false⟩ := by
      simp [send_telegram_message, h1, h2]
    rw [hmsg]
    exact chunk_textS_single _ 3500 (by omega) (by omega)
  · exact strContains_mid "📉 [" ts (" KST] 조건에 맞는 종목이 없습니다.")

/-- Witness for C6 (amended) at a concrete run timestamp and credentials. -/
theorem C6_no_hits_single_message_witness :
    main_send_calls "2026-10-12 09:00" [] "unused" = [no_matches_msg "2026-10-12 09:00"] ∧
    (send_telegram_message "token" "chat" (no_matches_msg "2026-10-12 09:00")).posts =
      [no_matches_msg "2026-10-12 09:00"] ∧
    strContains (no_matches_msg "2026-10-12 09:00") "2026-10-12 09:00" = true :=
  C6_no_hits_single_message "2026-10-12 09:00" "token" "chat" "unused"
    (by decide) (by decide) (by decide)

/-- C6 counterexample: at a run timestamp with no zero digit, the no-matches
message contains the timestamp but no "0" character at all, so it contains no
rendering of the zero match count, contrary to the claim. -/
theorem C6_counterexample :
    strContains (no_matches_msg "1111-11-11 11:11") "1111-11-11 11:11" = true ∧
    strContains (no_matches_msg "1111-11-11 11:11") "0" = false := by
  refine ⟨by decide, by decide⟩

/-! ### Ticker-listing column search (C7) -/

/-- Unfolding equation of `get_sp500_tickers` on a non-empty list. -/
lemma get_sp500_tickers_cons (t : Table) (ts : List Table) :
    get_sp500_tickers (t :: ts) =
      match t.find? (fun c => c.1 == "Symbol") with
      | some c => .ok c.2
      | none => .error (.keyError "Symbol") := rfl

/-- Unfolding equation of `find_ndx_col` on a non-empty list. -/
lemma find_ndx_col_cons (t : Table) (ts : List Table) :
    find_ndx_col (t :: ts) =
      if t.any (fun c => col_ci c.1) then
        match t.find? (fun c => col_cs c.1) with
        | some c => some c.2
        | none => find_ndx_col ts
      else find_ndx_col ts := rfl

/-- The NASDAQ-100 search succeeds exactly on lists containing a table that
passes the case-insensitive header test and has a column whose header contains
"Ticker" or "Symbol" case-sensitively. -/
lemma find_ndx_col_isSome (tables : List Table) :
    (find_ndx_col tables).isSome = true ↔
      ∃ t ∈ tables, (t.any fun c => col_ci c.1) = true ∧
        (t.any fun c => col_cs c.1) = true := by
  induction tables with
  | nil => simp [find_ndx_col]
  | cons t ts ih =>
    rcases hci : t.any (fun c => col_ci c.1) with _ | _
    · have hstep : find_ndx_col (t :: ts) = find_ndx_col ts := by
        rw [find_ndx_col_cons, hci]
        rfl
      rw [hstep, ih]
      constructor
      · rintro ⟨u, hu, hu1, hu2⟩
        exact ⟨u, List.mem_cons_of_mem t hu, hu1, hu2⟩
      · rintro ⟨u, hu, hu1, hu2⟩
        rcases List.mem_cons.mp hu with rfl | hu
        · rw [hci] at hu1
          exact Bool.noConfusion hu1
        · exact ⟨u, hu, hu1, hu2⟩
    · rcases hfind : t.find? (fun c => col_cs c.1) with _ | c
      · have hstep : find_ndx_col (t :: ts) = find_ndx_col ts := by
          rw [find_ndx_col_cons, hci, hfind]
          rfl
        rw [hstep, ih]
        constructor
        · rintro ⟨u, hu, hu1, hu2⟩
          exact ⟨u, List.mem_cons_of_mem t hu, hu1, hu2⟩
        · rintro ⟨u, hu, hu1, hu2⟩
          rcases List.mem_cons.mp hu with rfl | hu
          · rcases List.any_eq_true.mp hu2 with ⟨x, hx, hpx⟩
            exact absurd hpx (List.find?_eq_none.mp hfind x hx)
          · exact ⟨u, hu, hu1, hu2⟩
      · have hstep : find_ndx_col (t :: ts) = some c.2 := by
          rw [find_ndx_col_cons, hci, hfind]
          rfl
        rw [hstep]
        simp only [Option.isSome_some, true_iff]
        refine ⟨t, List.mem_cons_self t ts, hci, ?_⟩
        have hpc := List.find?_some hfind
        have hmem := List.mem_of_find?_eq_some hfind
        exact List.any_eq_true.mpr ⟨c, hmem, hpc⟩

/-- C7 (amended): the NASDAQ-100 fetch succeeds exactly when some table passes
the case-insensitive header detection and contains a case-sensitively matching
"Ticker"/"Symbol" column, and otherwise fails with the descriptive ValueError;
the S&P 500 fetch does not search at all — it succeeds exactly when the first
table has an exact "Symbol" column. -/
theorem C7_column_search_behavior (tables : List Table) :
    ((∃ l, get_nasdaq100_tickers tables = .ok l) ↔
      ∃ t ∈ tables, (t.any fun c => col_ci c.1) = true ∧
        (t.any fun c => col_cs c.1) = true) ∧
    (get_nasdaq100_tickers tables =
        .error (.valueError "NASDAQ-100 ticker table not found") ∨
      ∃ l, get_nasdaq100_tickers tables = .ok l) ∧
    ((∃ l, get_sp500_tickers tables = .ok l) ↔
      ∃ t, tables.head? = some t ∧ (t.any fun c => c.1 == "Symbol") = true) := by
  refine ⟨?_, ?_, ?_⟩
  · rw [← find_ndx_col_isSome]
    cases h : find_ndx_col tables <;> simp [get_nasdaq100_tickers, h]
  · cases h : find_ndx_col tables with
    | none => exact Or.inl (by simp [get_nasdaq100_tickers, h])
    | some l => exact Or.inr ⟨l, by simp [get_nasdaq100_tickers, h]⟩
  · cases tables with
    | nil =>
      constructor
      · rintro ⟨l, hl⟩
        exact Except.noConfusion hl
      · rintro ⟨u, hu, _⟩
        exact Option.noConfusion hu
    | cons t ts =>
      rcases hf : t.find? (fun c => c.1 == "Symbol") with _ | c
      · have hstep : get_sp500_tickers (t :: ts) = .error (.keyError "Symbol") := by
          rw [get_sp500_tickers_cons, hf]
        constructor
        · rintro ⟨l, hl⟩
          rw [hstep] at hl
          exact Except.noConfusion hl
        · rintro ⟨u, hu, hany⟩
          have hut : t = u := by simpa using hu
          subst hut
          rcases List.any_eq_true.mp hany with ⟨x, hx, hpx⟩
          exact absurd hpx (List.find?_eq_none.mp hf x hx)
      · have hstep : get_sp500_tickers (t :: ts) = .ok c.2 := by
          rw [get_sp500_tickers_cons, hf]
        constructor
        · intro _
          refine ⟨t, rfl, ?_⟩
          have hpc := List.find?_some hf
          have hmem := List.mem_of_find?_eq_some hf
          exact List.any_eq_true.mpr ⟨c, hmem, hpc⟩
        · intro _
          exact ⟨c.2, hstep⟩

/-- C7 counterexample: with a lone "ticker" header, a case-insensitive search
would find the column, but the NASDAQ-100 fetch raises its ValueError (the
column pick at line 69 is case-sensitive) and the S&P 500 fetch raises a
KeyError (it reads the exact "Symbol" column of the first table, searching
nothing). -/
theorem C7_counterexample :
    col_ci "ticker" = true ∧
    get_nasdaq100_tickers lowercaseTables =
      .error (.valueError "NASDAQ-100 ticker table not found") ∧
    get_sp500_tickers lowercaseTables = .error (.keyError "Symbol") := by
  refine ⟨by decide, by decide, by decide⟩

end Screener
